import Mathlib

/-!
Shallow embedding of the h5-converter core (`src/converter.py`): batch-size
discovery (`Data.find_num_batches`), row-range batch loading
(`Data.load_dataset_batch`), linear correction (`Data.linear_correction`),
save-path derivation (`Data.full_savepath`), dataset saving
(`Data.save_dataset`) and the sequential batch loop (`Gui.handle_batches`).

Numeric array values are modelled exactly as rationals; machine arrays are
lists; the h5py container file is modelled by its attribute and dataset maps;
Python exceptions are an explicit error type; the unbounded `while True`
retry loop takes an explicit fuel argument, with `none` meaning the loop is
still running after `fuel` iterations.
-/

/-- The Python exception kinds the converter distinguishes: `MemoryError` and
`ValueError` are the two caught in `find_num_batches`; `missingAttribute`
models the `KeyError` from a failed `.attrs[...]` lookup in
`get_linear_offset`/`get_linear_scale`; `keyError` models a failed dataset
lookup `f[self.h5key]`. -/
inductive PyErr
  | memoryError
  | valueError
  | missingAttribute
  | keyError
  deriving DecidableEq

/-- A 3-D numeric array (rows × dim1 × dim2), elements modelled exactly as
rationals. -/
abbrev Arr3 := List (List (List ℚ))

/-- Elementwise map over a 3-D array, modelling a numpy elementwise
operation. -/
def map3 (f : α → β) (a : List (List (List α))) : List (List (List β)) :=
  a.map (fun plane => plane.map (fun row => row.map f))

/-- Models Python `str.split("/")` on the character list of a string:
splits at every `/`, keeping empty components. -/
def split_chars : List Char → List (List Char)
  | [] => [[]]
  | c :: cs =>
    let r := split_chars cs
    if c = '/' then [] :: r
    else
      match r with
      | [] => [[c]]
      | h :: t => (c :: h) :: t

/-- Python `h5key.split("/")`. -/
def split_key (s : String) : List String :=
  (split_chars s.data).map (fun l => { data := l })

/-- Python `"/".join(parts)`. -/
def join_key : List String → String
  | [] => ""
  | [p] => p
  | p :: q :: ps => p ++ "/" ++ join_key (q :: ps)

/-- `"/".join(self.h5key.split("/")[0:-1])` from `get_linear_offset`:
the path of the parent group of a dataset key. -/
def parent_group (h5key : String) : String :=
  join_key (split_key h5key).dropLast

/-- `self.h5key.split("/")[-1]` from `get_linear_offset`: the leaf name of a
dataset key. -/
def leaf_name (h5key : String) : String :=
  (split_key h5key).getLastD ""

/-- `f"{dataset}_Conversion_ConversionLinearOffset"` from
`get_linear_offset`. -/
def offset_attribute (h5key : String) : String :=
  leaf_name h5key ++ "_Conversion_ConversionLinearOffset"

/-- `f"{dataset}_Conversion_ConversionLinearScale"` from
`get_linear_scale`. -/
def scale_attribute (h5key : String) : String :=
  leaf_name h5key ++ "_Conversion_ConversionLinearScale"

/-- Model of the opened source h5 container file: `attrs g a` is the value of
attribute `a` on group `g` (`none` when absent), `data k` is the 3-D dataset
stored at key `k` (`none` when the key does not resolve to a dataset). -/
structure H5File where
  attrs : String → String → Option ℚ
  data : String → Option Arr3

/-- `int(batch * dataset_size / self.num_batches)` from `load_dataset_batch`:
first row of batch `i` when `R` rows are split into `N` batches. -/
def batch_start (R N i : Nat) : Nat :=
  i * R / N

/-- `int((batch + 1) * dataset_size / self.num_batches)` from
`load_dataset_batch`: one past the last row of batch `i`. -/
def batch_end (R N i : Nat) : Nat :=
  (i + 1) * R / N

/-- `Data.load_dataset_batch`: slice rows `[batch_start:batch_end]` of the
dataset. The environment's memory ceiling is modelled by `cap`, the largest
number of rows that can be materialized at once; a larger slice raises
`MemoryError`. A key that resolves to no dataset raises a lookup error. -/
def load_dataset_batch (cap : Nat) (f : H5File) (h5key : String)
    (num_batches batch : Nat) : Except PyErr Arr3 :=
  match f.data h5key with
  | none => .error .keyError
  | some d =>
    let chunk := (d.take (batch_end d.length num_batches batch)).drop
      (batch_start d.length num_batches batch)
    if chunk.length ≤ cap then .ok chunk else .error .memoryError

/-- `Data.get_linear_offset`: read the offset attribute from the parent group
of the dataset key; absence raises the missing-attribute error. -/
def get_linear_offset (f : H5File) (h5key : String) : Except PyErr ℚ :=
  match f.attrs (parent_group h5key) (offset_attribute h5key) with
  | some v => .ok v
  | none => .error .missingAttribute

/-- `Data.get_linear_scale`: read the scale attribute from the parent group
of the dataset key; absence raises the missing-attribute error. -/
def get_linear_scale (f : H5File) (h5key : String) : Except PyErr ℚ :=
  match f.attrs (parent_group h5key) (scale_attribute h5key) with
  | some v => .ok v
  | none => .error .missingAttribute

/-- `Data.linear_correction`: read offset then scale, then replace the array
by `self.linear_scale * self.dataset + self.linear_offset` elementwise. -/
def linear_correction (f : H5File) (h5key : String) (dataset : Arr3) :
    Except PyErr Arr3 :=
  match get_linear_offset f h5key with
  | .error e => .error e
  | .ok o =>
    match get_linear_scale f h5key with
    | .error e => .error e
    | .ok s => .ok (map3 (fun x => s * x + o) dataset)

/-- One sizing attempt of `find_num_batches` at batch count `n`: load batch 0
at the current partitioning and, when correction is requested, apply the
correction to it. -/
def sizing_probe (cap : Nat) (f : H5File) (h5key : String) (corr : Bool)
    (n : Nat) : Except PyErr Unit :=
  match load_dataset_batch cap f h5key n 0 with
  | .error e => .error e
  | .ok d =>
    if corr then
      match linear_correction f h5key d with
      | .error e => .error e
      | .ok _ => .ok ()
    else .ok ()

/-- The `while True` retry loop of `find_num_batches`, from batch count `n`:
on success return the current count, on `ValueError` or `MemoryError`
increment the count and retry, on any other error propagate it. `fuel` bounds
the number of iterations modelled; `none` means the loop has not finished
within `fuel` iterations. -/
def find_num_batches_from (probe : Nat → Except PyErr Unit) :
    Nat → Nat → Option (Except PyErr Nat)
  | _, 0 => none
  | n, fuel + 1 =>
    match probe n with
    | .ok _ => some (.ok n)
    | .error .memoryError => find_num_batches_from probe (n + 1) fuel
    | .error .valueError => find_num_batches_from probe (n + 1) fuel
    | .error e => some (.error e)

/-- `Data.find_num_batches`: set `self.num_batches = 1`, then run the retry
loop. -/
def find_num_batches (probe : Nat → Except PyErr Unit) (fuel : Nat) :
    Option (Except PyErr Nat) :=
  find_num_batches_from probe 1 fuel

/-- The mutable fields of a `Data` object relevant to batch sizing: the
current key and the leftover `self.num_batches` from earlier processing. -/
structure DataState where
  h5key : String
  num_batches : Nat

/-- The retry loop of `find_num_batches` acting on the stored
`self.num_batches` field. -/
def find_loop (probe : Nat → Except PyErr Unit) :
    DataState → Nat → Option (Except PyErr DataState)
  | _, 0 => none
  | st, fuel + 1 =>
    match probe st.num_batches with
    | .ok _ => some (.ok st)
    | .error .memoryError =>
        find_loop probe { st with num_batches := st.num_batches + 1 } fuel
    | .error .valueError =>
        find_loop probe { st with num_batches := st.num_batches + 1 } fuel
    | .error e => some (.error e)

/-- `Data.find_num_batches` as a state transformer: its first statement
`self.num_batches = 1` resets the field before the loop runs. -/
def find_num_batches_stateful (probe : Nat → Except PyErr Unit)
    (st : DataState) (fuel : Nat) : Option (Except PyErr DataState) :=
  find_loop probe { st with num_batches := 1 } fuel

/-- `Data.full_savepath`: append `-corr` when correction was requested, then
`_batch{batch}` when there is more than one batch, then the `.h5`
extension. -/
def full_savepath (savepath : String) (num_batches : Nat) (corr : Bool)
    (batch : Nat) : String :=
  let s1 := if corr then savepath ++ "-corr" else savepath
  let s2 := if num_batches > 1 then s1 ++ "_batch" ++ toString batch else s1
  s2 ++ ".h5"

/-- numpy `astype("uint16")` on an exact numeric value: truncate toward zero
(C float-to-integer conversion), then wrap modulo 2^16 into the unsigned
16-bit range. -/
def astype_uint16 (x : ℚ) : Nat :=
  (Int.tdiv x.num (x.den : Int) % 65536).toNat

/-- Contents of one output container file: the array nodes it holds, each a
key path paired with a uint16 array. -/
structure SavedFile where
  nodes : List (String × List (List (List Nat)))
  deriving DecidableEq

/-- `Data.save_dataset`: derive the full save path and create, in a fresh
container file at that path, a single dataset at key `self.h5key` holding
`self.dataset.astype("uint16")`. -/
def save_dataset (h5key savepath : String) (num_batches : Nat) (corr : Bool)
    (batch : Nat) (dataset : Arr3) : String × SavedFile :=
  (full_savepath savepath num_batches corr batch,
    ⟨[(h5key, map3 astype_uint16 dataset)]⟩)

/-- Models the external h5py collaborator `h5py.File(path, "w")` plus the
subsequent dataset creation: mode `"w"` creates the file at `path`,
truncating (replacing) any file already there, and never fails on an existing
file. The filesystem is an association list from paths to file contents. -/
def fs_write (fs : List (String × SavedFile)) (path : String)
    (content : SavedFile) : List (String × SavedFile) :=
  (path, content) :: fs.filter (fun e => e.1 != path)

/-- Read the container file stored at `path`, if any. -/
def fs_lookup (fs : List (String × SavedFile)) (path : String) :
    Option SavedFile :=
  (fs.find? (fun e => e.1 == path)).map Prod.snd

/-- `Data.save_dataset` acting on the filesystem: write the derived file at
its derived path. -/
def save_dataset_fs (fs : List (String × SavedFile)) (h5key savepath : String)
    (num_batches : Nat) (corr : Bool) (batch : Nat) (dataset : Arr3) :
    List (String × SavedFile) :=
  let pc := save_dataset h5key savepath num_batches corr batch dataset
  fs_write fs pc.1 pc.2

/-- One iteration of `Gui.handle_batches`: load the batch, correct it when
`self.corr` is set, and save it; any error propagates. -/
def run_batch (cap : Nat) (f : H5File) (h5key savepath : String)
    (corr : Bool) (num_batches batch : Nat) :
    Except PyErr (String × SavedFile) :=
  match load_dataset_batch cap f h5key num_batches batch with
  | .error e => .error e
  | .ok d =>
    if corr then
      match linear_correction f h5key d with
      | .error e => .error e
      | .ok c => .ok (save_dataset h5key savepath num_batches corr batch c)
    else .ok (save_dataset h5key savepath num_batches corr batch d)

/-- Outcome of a batch loop: the files written, in order, and the error that
stopped the loop, if any. -/
structure RunResult where
  saves : List (String × SavedFile)
  error : Option PyErr
  deriving DecidableEq

/-- The batch loop of `Gui.handle_batches` over a list of batch indices:
strictly sequential, stopping at the first error with no retry. -/
def run_batches (step : Nat → Except PyErr (String × SavedFile)) :
    List Nat → RunResult
  | [] => ⟨[], none⟩
  | b :: bs =>
    match step b with
    | .error e => ⟨[], some e⟩
    | .ok s =>
      let r := run_batches step bs
      ⟨s :: r.saves, r.error⟩

/-- `Gui.handle_batches`: run the batch loop over `range(self.data.num_batches)`. -/
def handle_batches (cap : Nat) (f : H5File) (h5key savepath : String)
    (corr : Bool) (num_batches : Nat) : RunResult :=
  run_batches (run_batch cap f h5key savepath corr num_batches)
    (List.range num_batches)

/-- `Gui.handle_dataset`: fix the batch count with `find_num_batches`, then
run `handle_batches`; an error during sizing aborts before any file is
written, and `none` means sizing had not finished within `fuel` probes. -/
def handle_dataset (cap : Nat) (f : H5File) (h5key savepath : String)
    (corr : Bool) (fuel : Nat) : Option RunResult :=
  match find_num_batches (sizing_probe cap f h5key corr) fuel with
  | none => none
  | some (.error e) => some ⟨[], some e⟩
  | some (.ok n) => some (handle_batches cap f h5key savepath corr n)

/-- The array a batch contributes to its output file: load the row range,
correct it when requested, and cast to uint16. -/
def processed_batch (cap : Nat) (f : H5File) (h5key : String) (corr : Bool)
    (num_batches batch : Nat) : Except PyErr (List (List (List Nat))) :=
  match load_dataset_batch cap f h5key num_batches batch with
  | .error e => .error e
  | .ok d =>
    if corr then
      match linear_correction f h5key d with
      | .error e => .error e
      | .ok c => .ok (map3 astype_uint16 c)
    else .ok (map3 astype_uint16 d)

/-- Collect the per-batch results over a list of batch indices, propagating
the first error. -/
def collect_batches (step : Nat → Except PyErr α) :
    List Nat → Except PyErr (List α)
  | [] => .ok []
  | b :: bs =>
    match step b with
    | .error e => .error e
    | .ok a =>
      match collect_batches step bs with
      | .error e => .error e
      | .ok rest => .ok (a :: rest)

/-! Helper lemmas about the batch retry loop. -/

lemma find_from_reaches (probe : Nat → Except PyErr Unit) (k : Nat)
    (hsucc : probe k = .ok ()) :
    ∀ (fuel n : Nat), n ≤ k →
      (∀ m, n ≤ m → m < k →
        probe m = .error .memoryError ∨ probe m = .error .valueError) →
      k - n < fuel → find_num_batches_from probe n fuel = some (.ok k) := by
  intro fuel
  induction fuel with
  | zero => intro n _ _ h; omega
  | succ f ih =>
    intro n hn hf hlt
    by_cases hnk : n = k
    · subst hnk
      simp [find_num_batches_from, hsucc]
    · have hnlt : n < k := lt_of_le_of_ne hn hnk
      rcases hf n le_rfl hnlt with h | h <;>
        · simp only [find_num_batches_from, h]
          exact ih (n + 1) (by omega) (fun m hm1 hm2 => hf m (by omega) hm2)
            (by omega)

lemma find_loop_eq (probe : Nat → Except PyErr Unit) (key : String) :
    ∀ (fuel n : Nat),
      find_loop probe ⟨key, n⟩ fuel =
        (find_num_batches_from probe n fuel).map
          (Except.map (fun m => (⟨key, m⟩ : DataState))) := by
  intro fuel
  induction fuel with
  | zero => intro n; rfl
  | succ f ih =>
    intro n
    simp only [find_loop, find_num_batches_from]
    cases h : probe n with
    | ok u => rfl
    | error e => cases e <;> simp [ih, Except.map]

/-- C1: for every probe behaviour (dataset and correction flag) and every
`k ≥ 1`, if the sizing probe fails with a resource-exhaustion or size error
for every batch count below `k` and succeeds at `k`, then `find_num_batches`,
starting from `num_batches = 1` and incrementing by 1 on each retried
failure, terminates (any fuel of at least `k` iterations completes) and
returns exactly `k`. -/
theorem find_num_batches_minimal (probe : Nat → Except PyErr Unit)
    (k fuel : Nat) (hk : 1 ≤ k)
    (hfail : ∀ m, 1 ≤ m → m < k →
      probe m = .error .memoryError ∨ probe m = .error .valueError)
    (hsucc : probe k = .ok ())
    (hfuel : k ≤ fuel) :
    find_num_batches probe fuel = some (.ok k) :=
  find_from_reaches probe k hsucc fuel 1 hk (fun m hm1 hm2 => hfail m hm1 hm2)
    (by omega)

/-- Witness for C1: a probe that fails with `MemoryError` below batch count 3
and succeeds there makes `find_num_batches` return exactly 3. -/
theorem find_num_batches_minimal_witness :
    find_num_batches
      (fun n => if n < 3 then .error .memoryError else .ok ()) 5 =
      some (.ok 3) :=
  find_num_batches_minimal
    (fun n => if n < 3 then .error .memoryError else .ok ()) 3 5
    (by decide)
    (fun m _ hm => Or.inl (by simp [hm]))
    rfl
    (by decide)

/-- C10: `find_num_batches` resets `self.num_batches` to 1 before probing, so
two `Data` states that differ only in the leftover `num_batches` value give
the same sizing outcome, and that outcome is the one determined by the probe
behaviour alone. -/
theorem find_num_batches_resets_state :
    (∀ (probe : Nat → Except PyErr Unit) (key : String) (a b fuel : Nat),
      find_num_batches_stateful probe ⟨key, a⟩ fuel =
        find_num_batches_stateful probe ⟨key, b⟩ fuel) ∧
    (∀ (probe : Nat → Except PyErr Unit) (key : String) (a fuel : Nat),
      find_num_batches_stateful probe ⟨key, a⟩ fuel =
        (find_num_batches probe fuel).map
          (Except.map (fun m => (⟨key, m⟩ : DataState)))) :=
  ⟨fun _ _ _ _ _ => rfl,
   fun probe key _ fuel => find_loop_eq probe key fuel 1⟩

/-- C4: save-path derivation is a pure function of the base savepath, the
correction flag, the batch index and the batch count: the `-corr` suffix is
inserted exactly when correction was requested, the `_batch{i}` suffix
exactly when the batch count exceeds 1, the `.h5` extension comes last, and
the four concrete derivations of the specification hold. -/
theorem full_savepath_correct :
    (∀ (base : String) (corr : Bool) (N i : Nat),
      full_savepath base N corr i =
        base ++ (if corr then "-corr" else "") ++
          (if N > 1 then "_batch" ++ toString i else "") ++ ".h5") ∧
    full_savepath "/out/x" 1 false 0 = "/out/x.h5" ∧
    full_savepath "/out/x" 1 true 0 = "/out/x-corr.h5" ∧
    full_savepath "/out/x" 5 false 2 = "/out/x_batch2.h5" ∧
    full_savepath "/out/x" 5 true 3 = "/out/x-corr_batch3.h5" := by
  refine ⟨?_, rfl, rfl, rfl, rfl⟩
  intro base corr N i
  cases corr <;> by_cases hN : N > 1 <;>
    simp [full_savepath, hN, ← String.append_assoc, String.append_empty]

/-! Helper lemmas about the row-range boundaries. -/

lemma batch_start_mono (R N : Nat) {i j : Nat} (hij : i ≤ j) :
    batch_start R N i ≤ batch_start R N j :=
  Nat.div_le_div_right (mul_le_mul_right' hij R)

lemma batch_start_zero (R N : Nat) : batch_start R N 0 = 0 := by
  simp [batch_start]

lemma batch_start_total (R N : Nat) (hN : 0 < N) : batch_start R N N = R := by
  simp only [batch_start]
  exact Nat.mul_div_cancel_left R hN

lemma lt_div_succ_mul (a N : Nat) (hN : 0 < N) : a < (a / N + 1) * N := by
  have hd := Nat.div_add_mod a N
  have hm : a % N < N := Nat.mod_lt _ hN
  calc a = N * (a / N) + a % N := hd.symm
    _ < N * (a / N) + N := by omega
    _ = (a / N + 1) * N := by ring

lemma batch_size_lower (R N i : Nat) (hN : 0 < N) :
    batch_start R N i + R / N ≤ batch_end R N i := by
  have h : (i * R / N + R / N) * N ≤ i * R + R := by
    have h1 : i * R / N * N ≤ i * R := Nat.div_mul_le_self _ _
    have h2 : R / N * N ≤ R := Nat.div_mul_le_self _ _
    calc (i * R / N + R / N) * N = i * R / N * N + R / N * N := by ring
      _ ≤ i * R + R := Nat.add_le_add h1 h2
  have hle := (Nat.le_div_iff_mul_le hN).mpr h
  have he : batch_end R N i = (i * R + R) / N := by
    simp [batch_end, Nat.add_mul]
  simp only [batch_start, he]
  exact hle

lemma batch_size_upper (R N i : Nat) (hN : 0 < N) :
    batch_end R N i ≤ batch_start R N i + R / N + 1 := by
  have h1 := lt_div_succ_mul (i * R) N hN
  have h2 := lt_div_succ_mul R N hN
  have hlt : (i * R + R) / N < i * R / N + R / N + 2 :=
    (Nat.div_lt_iff_lt_mul hN).mpr
      (calc i * R + R < (i * R / N + 1) * N + (R / N + 1) * N :=
          Nat.add_lt_add h1 h2
        _ = (i * R / N + R / N + 2) * N := by ring)
  have he : batch_end R N i = (i * R + R) / N := by
    simp [batch_end, Nat.add_mul]
  simp only [batch_start, he]
  omega

lemma batch_cover_aux (R N : Nat) (hN : 0 < N) {x : Nat} (hx : x < R) :
    ∃ i, i < N ∧ batch_start R N i ≤ x ∧ x < batch_end R N i := by
  have hex : ∃ i, x < batch_start R N i :=
    ⟨N, by rw [batch_start_total R N hN]; exact hx⟩
  have hk : x < batch_start R N (Nat.find hex) := Nat.find_spec hex
  have hk0 : Nat.find hex ≠ 0 := by
    intro h0
    rw [h0, batch_start_zero] at hk
    omega
  have hjx : batch_start R N (Nat.find hex - 1) ≤ x :=
    Nat.not_lt.mp (Nat.find_min hex (by omega))
  refine ⟨Nat.find hex - 1, ?_, hjx, ?_⟩
  · by_contra h
    push_neg at h
    have := batch_start_mono R N h
    rw [batch_start_total R N hN] at this
    omega
  · have he : batch_end R N (Nat.find hex - 1) =
        batch_start R N (Nat.find hex - 1 + 1) := rfl
    rw [he, show Nat.find hex - 1 + 1 = Nat.find hex from by omega]
    exact hk

/-- C2: for every row count `R` and batch count `N ≥ 1`, the row ranges
`[batch_start i, batch_end i)` for `i = 0..N-1` are contiguous, monotone and
non-overlapping, together cover exactly `[0, R)`, and their sizes differ by
at most one row between any two batches. -/
theorem batch_partition_correct (R N : Nat) (hN : 1 ≤ N) :
    (∀ i, batch_end R N i = batch_start R N (i + 1)) ∧
    batch_start R N 0 = 0 ∧
    batch_end R N (N - 1) = R ∧
    (∀ i j, i ≤ j → batch_start R N i ≤ batch_start R N j) ∧
    (∀ i j, i < j → batch_end R N i ≤ batch_start R N j) ∧
    (∀ i, i < N → batch_end R N i ≤ R) ∧
    (∀ x, x < R → ∃ i, i < N ∧ batch_start R N i ≤ x ∧ x < batch_end R N i) ∧
    (∀ i j, batch_end R N i - batch_start R N i ≤
      (batch_end R N j - batch_start R N j) + 1) := by
  refine ⟨fun i => rfl, batch_start_zero R N, ?_, ?_, ?_, ?_, ?_, ?_⟩
  · have h1 : N - 1 + 1 = N := by omega
    have he : batch_end R N (N - 1) = batch_start R N (N - 1 + 1) := rfl
    rw [he, h1]
    exact batch_start_total R N hN
  · exact fun i j hij => batch_start_mono R N hij
  · intro i j hij
    have he : batch_end R N i = batch_start R N (i + 1) := rfl
    rw [he]
    exact batch_start_mono R N (by omega)
  · intro i hi
    have he : batch_end R N i = batch_start R N (i + 1) := rfl
    rw [he]
    calc batch_start R N (i + 1) ≤ batch_start R N N :=
        batch_start_mono R N (by omega)
      _ = R := batch_start_total R N hN
  · exact fun x hx => batch_cover_aux R N hN hx
  · intro i j
    have ui := batch_size_upper R N i hN
    have lj := batch_size_lower R N j hN
    have mi := batch_start_mono R N (show i ≤ i + 1 by omega)
    have mj := batch_start_mono R N (show j ≤ j + 1 by omega)
    have hei : batch_end R N i = batch_start R N (i + 1) := rfl
    have hej : batch_end R N j = batch_start R N (j + 1) := rfl
    omega

/-- Witness for C2: the partition property evaluated at 10 rows split into 3
batches. -/
theorem batch_partition_correct_witness :
    1 ≤ 3 ∧
    ((∀ i, batch_end 10 3 i = batch_start 10 3 (i + 1)) ∧
     batch_start 10 3 0 = 0 ∧
     batch_end 10 3 (3 - 1) = 10 ∧
     (∀ i j, i ≤ j → batch_start 10 3 i ≤ batch_start 10 3 j) ∧
     (∀ i j, i < j → batch_end 10 3 i ≤ batch_start 10 3 j) ∧
     (∀ i, i < 3 → batch_end 10 3 i ≤ 10) ∧
     (∀ x, x < 10 →
       ∃ i, i < 3 ∧ batch_start 10 3 i ≤ x ∧ x < batch_end 10 3 i) ∧
     (∀ i j, batch_end 10 3 i - batch_start 10 3 i ≤
       (batch_end 10 3 j - batch_start 10 3 j) + 1)) :=
  ⟨by decide, batch_partition_correct 10 3 (by decide)⟩

/-- C3: whenever the parent group of a dataset key carries both conversion
attributes, the correction reads the offset from the parent-group attribute
`<leaf-name>_Conversion_ConversionLinearOffset` and the scale from
`<leaf-name>_Conversion_ConversionLinearScale`, and replaces every element
`x` of the loaded array by `scale * x + offset` — that exact direction, not
its algebraic inverse. -/
theorem linear_correction_applies_scale_offset (f : H5File) (h5key : String)
    (o s : ℚ) (a : Arr3)
    (ho : f.attrs (parent_group h5key) (offset_attribute h5key) = some o)
    (hs : f.attrs (parent_group h5key) (scale_attribute h5key) = some s) :
    linear_correction f h5key a = .ok (map3 (fun x => s * x + o) a) ∧
    offset_attribute "grp/leaf" = "leaf_Conversion_ConversionLinearOffset" ∧
    scale_attribute "grp/leaf" = "leaf_Conversion_ConversionLinearScale" ∧
    parent_group "grp/leaf" = "grp" := by
  refine ⟨?_, rfl, rfl, rfl⟩
  simp [linear_correction, get_linear_offset, get_linear_scale, ho, hs]

/-- Witness for C3: with scale 2 and offset 10 stored under the conventional
attribute names, the loaded value 5 is corrected to exactly 20. -/
theorem linear_correction_applies_scale_offset_witness :
    linear_correction
      ⟨fun _ attr =>
        if attr = "leaf_Conversion_ConversionLinearOffset" then some 10
        else if attr = "leaf_Conversion_ConversionLinearScale" then some 2
        else none,
       fun _ => none⟩
      "grp/leaf" [[[5]]] = .ok [[[20]]] := by
  have h :=
    (linear_correction_applies_scale_offset
      ⟨fun _ attr =>
        if attr = "leaf_Conversion_ConversionLinearOffset" then some 10
        else if attr = "leaf_Conversion_ConversionLinearScale" then some 2
        else none,
       fun _ => none⟩
      "grp/leaf" 10 2 [[[5]]] rfl rfl).1
  rw [h]
  norm_num [map3]

/-- C8: every save writes exactly one array node, under the same dataset key
the array had in the source file, into a newly created container file at the
derived path, with elements cast to unsigned 16-bit integers by truncation
toward zero and modular wrap — no clamping (70000 wraps to 4464, not 65535;
-3 wraps to 65533, not 0) and no rounding (7/2 truncates to 3, -9/2 to
65532). -/
theorem save_dataset_uint16_node :
    (∀ (h5key base : String) (N : Nat) (corr : Bool) (b : Nat)
        (dataset : Arr3),
      save_dataset h5key base N corr b dataset =
        (full_savepath base N corr b,
          ⟨[(h5key, map3 astype_uint16 dataset)]⟩)) ∧
    (∀ x : ℚ, astype_uint16 x = (Int.tdiv x.num (x.den : Int) % 65536).toNat) ∧
    astype_uint16 65535 = 65535 ∧
    astype_uint16 70000 = 4464 ∧
    astype_uint16 (-3) = 65533 ∧
    astype_uint16 (7 / 2) = 3 ∧
    astype_uint16 (-9 / 2) = 65532 := by
  refine ⟨fun _ _ _ _ _ _ => rfl, fun x => rfl, by decide, by decide,
    by decide, ?_, ?_⟩
  · norm_num [astype_uint16]
    decide
  · norm_num [astype_uint16]
    decide

/-! Helper lemma about lookups in the filesystem model. -/

lemma find_after_filter (p path : String) (h : p ≠ path) :
    ∀ fs : List (String × SavedFile),
      (fs.filter (fun e => e.1 != path)).find? (fun e => e.1 == p) =
        fs.find? (fun e => e.1 == p) := by
  intro fs
  induction fs with
  | nil => rfl
  | cons a as ih =>
    by_cases ha : a.1 = path
    · have h1 : (a.1 != path) = false := by simp [ha]
      have h2 : (a.1 == p) = false := by
        rw [ha]
        exact beq_eq_false_iff_ne.mpr (Ne.symm h)
      simp [List.filter_cons, List.find?, h1, h2, ih]
    · have h1 : (a.1 != path) = true := by simp [bne_iff_ne, ha]
      cases hp : (a.1 == p) with
      | true => simp [List.filter_cons, List.find?, h1, hp]
      | false => simp [List.filter_cons, List.find?, h1, hp, ih]

/-- C9: the target container file is opened in write/truncate mode, so a file
already at the derived save path is silently replaced by the new
single-dataset file — after a save, the derived path holds exactly the new
file whatever the filesystem held before, other paths are untouched, and an
existing file never causes an error and is never appended to. -/
theorem save_overwrites_existing :
    (∀ (fs : List (String × SavedFile)) (h5key base : String) (N : Nat)
        (corr : Bool) (b : Nat) (dataset : Arr3),
      fs_lookup (save_dataset_fs fs h5key base N corr b dataset)
          (full_savepath base N corr b) =
        some ⟨[(h5key, map3 astype_uint16 dataset)]⟩) ∧
    (∀ (fs : List (String × SavedFile)) (path : String) (content : SavedFile),
      fs_lookup (fs_write fs path content) path = some content) ∧
    (∀ (fs : List (String × SavedFile)) (path : String) (content : SavedFile)
        (p : String), p ≠ path →
      fs_lookup (fs_write fs path content) p = fs_lookup fs p) := by
  have h2 : ∀ (fs : List (String × SavedFile)) (path : String)
      (content : SavedFile),
      fs_lookup (fs_write fs path content) path = some content := by
    intro fs path content
    simp [fs_lookup, fs_write, List.find?]
  refine ⟨?_, h2, ?_⟩
  · intro fs h5key base N corr b dataset
    exact h2 fs (full_savepath base N corr b)
      ⟨[(h5key, map3 astype_uint16 dataset)]⟩
  · intro fs path content p hp
    have hne : (path == p) = false := beq_eq_false_iff_ne.mpr (Ne.symm hp)
    simp [fs_lookup, fs_write, List.find?, hne, find_after_filter p path hp fs]

/-- Witness for C9: writing at path `"a"` leaves the file stored at `"b"`
unchanged. -/
theorem save_overwrites_existing_witness :
    ("b" : String) ≠ "a" ∧
    fs_lookup (fs_write [("a", ⟨[]⟩), ("b", ⟨[]⟩)] "a" ⟨[("k", [])]⟩) "b" =
      fs_lookup [("a", ⟨[]⟩), ("b", ⟨[]⟩)] "b" :=
  ⟨by decide, save_overwrites_existing.2.2 _ "a" _ "b" (by decide)⟩

/-! Helper lemmas about loading, correction failure and the batch loop. -/

lemma load_batch_full (cap : Nat) (f : H5File) (h5key : String) (d : Arr3)
    (N i : Nat) (hd : f.data h5key = some d) (hcap : d.length ≤ cap) :
    load_dataset_batch cap f h5key N i =
      .ok ((d.take (batch_end d.length N i)).drop
        (batch_start d.length N i)) := by
  have hc : ((d.take (batch_end d.length N i)).drop
      (batch_start d.length N i)).length ≤ cap := by
    rw [List.length_drop, List.length_take]
    have hmin := min_le_right (batch_end d.length N i) d.length
    omega
  simp only [load_dataset_batch, hd]
  rw [if_pos hc]

lemma slice_single_batch {α : Type} (d : List α) :
    (d.take (batch_end d.length 1 0)).drop (batch_start d.length 1 0) = d := by
  simp [batch_start, batch_end]

lemma linear_correction_missing (f : H5File) (h5key : String)
    (hmiss : f.attrs (parent_group h5key) (offset_attribute h5key) = none ∨
      f.attrs (parent_group h5key) (scale_attribute h5key) = none) :
    ∀ a : Arr3, linear_correction f h5key a = .error .missingAttribute := by
  intro a
  rcases hmiss with hmo | hms
  · simp [linear_correction, get_linear_offset, hmo]
  · cases ho : f.attrs (parent_group h5key) (offset_attribute h5key) with
    | none => simp [linear_correction, get_linear_offset, ho]
    | some v =>
      simp [linear_correction, get_linear_offset, get_linear_scale, ho, hms]

lemma run_batches_stop (step : Nat → Except PyErr (String × SavedFile))
    (sv : Nat → String × SavedFile) (e : PyErr) :
    ∀ (l₁ : List Nat) (j : Nat) (l₂ : List Nat),
      (∀ i ∈ l₁, step i = .ok (sv i)) → step j = .error e →
      run_batches step (l₁ ++ j :: l₂) = ⟨l₁.map sv, some e⟩ := by
  intro l₁
  induction l₁ with
  | nil =>
    intro j l₂ _ hj
    simp [run_batches, hj]
  | cons a as ih =>
    intro j l₂ hok hj
    have ha : step a = .ok (sv a) := hok a (List.mem_cons_self a as)
    simp only [List.cons_append, run_batches, ha, List.append_eq]
    rw [ih j l₂ (fun i hi => hok i (List.mem_cons_of_mem a hi)) hj]
    simp

lemma range_split_at (N j : Nat) (h : j < N) :
    List.range N =
      List.range j ++ j ::
        (List.range (N - (j + 1))).map (fun x => j + 1 + x) := by
  conv_lhs => rw [show N = j + 1 + (N - (j + 1)) from by omega]
  rw [List.range_add, List.range_succ]
  simp [List.append_assoc]

/-- C6: for every dataset key processed with correction requested, if either
conversion attribute is absent from the parent group, the missing-attribute
error is raised before any save file is created for that key: the Batch Sizer
surfaces it from the very first probe without incrementing the batch count
(it is not among the caught resource errors), and the pipeline ends with no
saved files. -/
theorem missing_attribute_aborts (cap : Nat) (f : H5File)
    (h5key savepath : String) (d : Arr3) (fuel : Nat)
    (hd : f.data h5key = some d)
    (hcap : d.length ≤ cap)
    (hmiss : f.attrs (parent_group h5key) (offset_attribute h5key) = none ∨
      f.attrs (parent_group h5key) (scale_attribute h5key) = none) :
    find_num_batches (sizing_probe cap f h5key true) (fuel + 1) =
      some (.error .missingAttribute) ∧
    handle_dataset cap f h5key savepath true (fuel + 1) =
      some ⟨[], some .missingAttribute⟩ := by
  have hload := load_batch_full cap f h5key d 1 0 hd hcap
  have hcorr := linear_correction_missing f h5key hmiss
  have hprobe : sizing_probe cap f h5key true 1 = .error .missingAttribute := by
    simp [sizing_probe, hload, hcorr]
  have h1 : find_num_batches (sizing_probe cap f h5key true) (fuel + 1) =
      some (.error .missingAttribute) := by
    simp [find_num_batches, find_num_batches_from, hprobe]
  exact ⟨h1, by simp [handle_dataset, h1]⟩

/-- Witness for C6: a one-row dataset whose parent group has no conversion
attributes makes the pipeline stop with the missing-attribute error and
write nothing. -/
theorem missing_attribute_aborts_witness :
    find_num_batches
      (sizing_probe 1
        ⟨fun _ _ => none, fun k => if k = "g/a" then some [[[1]]] else none⟩
        "g/a" true) 1 =
      some (.error .missingAttribute) ∧
    handle_dataset 1
      ⟨fun _ _ => none, fun k => if k = "g/a" then some [[[1]]] else none⟩
      "g/a" "/out/a" true 1 =
      some ⟨[], some .missingAttribute⟩ :=
  missing_attribute_aborts 1
    ⟨fun _ _ => none, fun k => if k = "g/a" then some [[[1]]] else none⟩
    "g/a" "/out/a" [[[1]]] 0 rfl (by decide) (Or.inl rfl)

/-- C7: resource-exhaustion and size errors are recovered only during sizing
probes, by incrementing the batch count and retrying; any other error during
sizing propagates immediately; and any error in the main batch loop, after
the batch count is fixed, aborts the loop at that batch with no per-batch
retry, keeping only the files saved before it. -/
theorem sizing_retry_policy :
    (∀ (probe : Nat → Except PyErr Unit) (n fuel : Nat) (e : PyErr),
      (e = .memoryError ∨ e = .valueError) → probe n = .error e →
      find_num_batches_from probe n (fuel + 1) =
        find_num_batches_from probe (n + 1) fuel) ∧
    (∀ (probe : Nat → Except PyErr Unit) (n fuel : Nat) (e : PyErr),
      probe n = .error e → e ≠ .memoryError → e ≠ .valueError →
      find_num_batches_from probe n (fuel + 1) = some (.error e)) ∧
    (∀ (cap : Nat) (f : H5File) (h5key savepath : String) (corr : Bool)
        (N : Nat) (sv : Nat → String × SavedFile) (j : Nat) (e : PyErr),
      j < N →
      (∀ i, i < j → run_batch cap f h5key savepath corr N i = .ok (sv i)) →
      run_batch cap f h5key savepath corr N j = .error e →
      handle_batches cap f h5key savepath corr N =
        ⟨(List.range j).map sv, some e⟩) := by
  refine ⟨?_, ?_, ?_⟩
  · intro probe n fuel e he hp
    rcases he with h | h <;> subst h <;> simp [find_num_batches_from, hp]
  · intro probe n fuel e hp h1 h2
    cases e with
    | memoryError => exact absurd rfl h1
    | valueError => exact absurd rfl h2
    | missingAttribute => simp [find_num_batches_from, hp]
    | keyError => simp [find_num_batches_from, hp]
  · intro cap f h5key savepath corr N sv j e hj hok hfail
    unfold handle_batches
    rw [range_split_at N j hj]
    exact run_batches_stop _ sv e (List.range j) j _
      (fun i hi => hok i (List.mem_range.mp hi)) hfail

/-- Witness for C7: a memory error during sizing retries at the next count, a
missing-attribute error during sizing surfaces at once, and a key-resolution
error at batch 0 of the main loop aborts it with nothing saved. -/
theorem sizing_retry_policy_witness :
    (find_num_batches_from (fun _ => .error .memoryError) 1 2 =
      find_num_batches_from (fun _ => .error .memoryError) 2 1) ∧
    (find_num_batches_from (fun _ => .error .missingAttribute) 1 2 =
      some (.error .missingAttribute)) ∧
    handle_batches 0 ⟨fun _ _ => none, fun _ => none⟩ "k" "s" false 1 =
      ⟨[], some .keyError⟩ :=
  ⟨sizing_retry_policy.1 _ 1 1 .memoryError (Or.inl rfl) rfl,
   sizing_retry_policy.2.1 _ 1 1 .missingAttribute rfl (by decide) (by decide),
   sizing_retry_policy.2.2 0 ⟨fun _ _ => none, fun _ => none⟩ "k" "s" false 1
     (fun _ => ("", ⟨[]⟩)) 0 .keyError (by decide)
     (fun i hi => absurd hi (Nat.not_lt_zero i)) rfl⟩

/-! Helper lemmas for concatenating batch slices. -/

lemma flatten_take_drop {α : Type} (g : Nat → Nat)
    (mono : ∀ i j, i ≤ j → g i ≤ g j) (h0 : g 0 = 0) :
    ∀ (N : Nat) (d : List α), g N = d.length →
      ((List.range N).map (fun i => (d.take (g (i + 1))).drop (g i))).flatten
        = d := by
  intro N
  induction N with
  | zero =>
    intro d h
    have hl : d.length = 0 := by rw [← h, h0]
    simp [List.eq_nil_of_length_eq_zero hl]
  | succ n ih =>
    intro d h
    rw [List.range_succ, List.map_append, List.flatten_append]
    simp only [List.map_cons, List.map_nil, List.flatten_cons,
      List.flatten_nil, List.append_nil]
    have hgn : g n ≤ d.length := by
      rw [← h]
      exact mono n (n + 1) (by omega)
    have hlen : g n = (d.take (g n)).length := by
      rw [List.length_take]
      exact (min_eq_left hgn).symm
    have hsl : (List.range n).map (fun i => (d.take (g (i + 1))).drop (g i)) =
        (List.range n).map
          (fun i => ((d.take (g n)).take (g (i + 1))).drop (g i)) := by
      apply List.map_congr_left
      intro i hi
      have hin : i + 1 ≤ n := by
        have := List.mem_range.mp hi
        omega
      rw [List.take_take, min_eq_left (mono (i + 1) n hin)]
    rw [hsl, ih (d.take (g n)) hlen]
    rw [show d.take (g (n + 1)) = d from by rw [h]; exact List.take_length d]
    exact List.take_append_drop (g n) d

lemma batch_slices_flatten {α : Type} (d : List α) (N : Nat) (hN : 1 ≤ N) :
    ((List.range N).map (fun i =>
      (d.take (batch_end d.length N i)).drop
        (batch_start d.length N i))).flatten = d :=
  flatten_take_drop (fun i => batch_start d.length N i)
    (fun _ _ hij => batch_start_mono _ _ hij) (batch_start_zero _ _) N d
    (batch_start_total _ _ hN)

lemma map_slices_flatten {α β : Type} (φ : α → β) (d : List α) (N : Nat)
    (hN : 1 ≤ N) :
    ((List.range N).map (fun i =>
      ((d.take (batch_end d.length N i)).drop
        (batch_start d.length N i)).map φ)).flatten = d.map φ := by
  have hcongr : ∀ i ∈ List.range N,
      ((d.take (batch_end d.length N i)).drop
        (batch_start d.length N i)).map φ =
      ((d.map φ).take (batch_end (d.map φ).length N i)).drop
        (batch_start (d.map φ).length N i) := by
    intro i _
    rw [List.map_drop, List.map_take, List.length_map]
  rw [List.map_congr_left hcongr]
  exact batch_slices_flatten (d.map φ) N hN

lemma map3_map3 {α β γ : Type} (f2 : β → γ) (f1 : α → β)
    (a : List (List (List α))) :
    map3 f2 (map3 f1 a) = map3 (fun x => f2 (f1 x)) a := by
  simp [map3, List.map_map, Function.comp]

lemma linear_correction_ok (f : H5File) (h5key : String) (o s : ℚ)
    (a : Arr3)
    (ho : f.attrs (parent_group h5key) (offset_attribute h5key) = some o)
    (hs : f.attrs (parent_group h5key) (scale_attribute h5key) = some s) :
    linear_correction f h5key a = .ok (map3 (fun x => s * x + o) a) := by
  simp [linear_correction, get_linear_offset, get_linear_scale, ho, hs]

lemma collect_batches_ok {α : Type} (step : Nat → Except PyErr α)
    (g : Nat → α) :
    ∀ l : List Nat, (∀ i ∈ l, step i = .ok (g i)) →
      collect_batches step l = .ok (l.map g) := by
  intro l
  induction l with
  | nil => intro _; rfl
  | cons a as ih =>
    intro h
    have ha := h a (List.mem_cons_self a as)
    simp only [collect_batches, ha,
      ih (fun i hi => h i (List.mem_cons_of_mem a hi)), List.map_cons]

/-- C5: for every dataset, every fixed batch count `N ≥ 1` and either
correction setting, concatenating in increasing batch-index order the arrays
produced for batches `0..N-1` (each loaded by its row range, then corrected
and cast identically) yields element for element the array obtained by
loading the whole dataset with `num_batches = 1` and applying the same
correction and cast once. -/
theorem batch_concat_roundtrip (cap : Nat) (f : H5File) (h5key : String)
    (corr : Bool) (d : Arr3) (o s : ℚ) (N : Nat)
    (hd : f.data h5key = some d)
    (hcap : d.length ≤ cap)
    (hN : 1 ≤ N)
    (ho : corr = true →
      f.attrs (parent_group h5key) (offset_attribute h5key) = some o)
    (hs : corr = true →
      f.attrs (parent_group h5key) (scale_attribute h5key) = some s) :
    ∃ parts whole,
      collect_batches (processed_batch cap f h5key corr N) (List.range N) =
        .ok parts ∧
      processed_batch cap f h5key corr 1 0 = .ok whole ∧
      parts.flatten = whole := by
  cases corr with
  | false =>
    refine ⟨(List.range N).map (fun i => map3 astype_uint16
        ((d.take (batch_end d.length N i)).drop (batch_start d.length N i))),
      map3 astype_uint16 d, ?_, ?_, ?_⟩
    · exact collect_batches_ok _ _ _ (fun i _ => by
        simp [processed_batch, load_batch_full cap f h5key d N i hd hcap])
    · simp [processed_batch, load_batch_full cap f h5key d 1 0 hd hcap,
        slice_single_batch]
    · exact map_slices_flatten _ d N hN
  | true =>
    refine ⟨(List.range N).map (fun i =>
        map3 (fun x => astype_uint16 (s * x + o))
          ((d.take (batch_end d.length N i)).drop
            (batch_start d.length N i))),
      map3 (fun x => astype_uint16 (s * x + o)) d, ?_, ?_, ?_⟩
    · exact collect_batches_ok _ _ _ (fun i _ => by
        simp [processed_batch, load_batch_full cap f h5key d N i hd hcap,
          linear_correction_ok f h5key o s _ (ho rfl) (hs rfl), map3_map3])
    · simp [processed_batch, load_batch_full cap f h5key d 1 0 hd hcap,
        slice_single_batch,
        linear_correction_ok f h5key o s d (ho rfl) (hs rfl), map3_map3]
    · exact map_slices_flatten _ d N hN

/-- Witness for C5: a 3-row dataset with offset 1 and scale 2, split into 2
batches, concatenates back to the single-batch result. -/
theorem batch_concat_roundtrip_witness :
    ∃ parts whole,
      collect_batches
        (processed_batch 3
          ⟨fun _ attr =>
            if attr = "a_Conversion_ConversionLinearOffset" then some 1
            else if attr = "a_Conversion_ConversionLinearScale" then some 2
            else none,
           fun k => if k = "g/a" then some [[[1]], [[2]], [[3]]] else none⟩
          "g/a" true 2) (List.range 2) = .ok parts ∧
      processed_batch 3
        ⟨fun _ attr =>
          if attr = "a_Conversion_ConversionLinearOffset" then some 1
          else if attr = "a_Conversion_ConversionLinearScale" then some 2
          else none,
         fun k => if k = "g/a" then some [[[1]], [[2]], [[3]]] else none⟩
        "g/a" true 1 0 = .ok whole ∧
      parts.flatten = whole :=
  batch_concat_roundtrip 3
    ⟨fun _ attr =>
      if attr = "a_Conversion_ConversionLinearOffset" then some 1
      else if attr = "a_Conversion_ConversionLinearScale" then some 2
      else none,
     fun k => if k = "g/a" then some [[[1]], [[2]], [[3]]] else none⟩
    "g/a" true [[[1]], [[2]], [[3]]] 1 2 2 rfl (by decide) (by decide)
    (fun _ => rfl) (fun _ => rfl)
